import Mathlib

/-!
Shallow embedding of the web-ocr asynchronous region-processing pipeline:
the retry/backoff/timeout utilities (`src/utils/retryUtils.ts`), the Gemini
vision client error classification (`src/services/geminiService.ts`), the
region validation and cropping (`src/services/imageProcessingService.ts`),
and the OCR orchestrator / status endpoint (`src/controllers/ocrController.ts`).

JavaScript conventions modelled explicitly:
* an absent (`undefined`) string property is `Option String` with `none`;
* `a || b` on strings treats both `undefined` and `""` as falsy (`jsOrS`);
* a property that can hold `undefined`, `""` or a boolean (the `retryable`
  field written by the Gemini client) is the three-valued `JSBool`;
* thrown values are `JSError` records; a thrown `undefined` (the unreachable
  trailing `throw lastError` of `retryWithBackoff`) is `Option JSError`'s
  `none`;
* `String.prototype.includes` is char-list infix containment (`jsIncludes`);
* JavaScript numbers carrying pixel geometry are `Int` (pixel counts are
  integral in every code path modelled); times and delays are `Nat`.
-/

namespace WebOCR

/-- A JavaScript value that is `undefined`, the empty string, or a boolean:
the possible values of the `retryable` property on thrown error objects. -/
inductive JSBool where
  | undef
  | emptyStr
  | val (b : Bool)
deriving DecidableEq, Repr

/-- A thrown JavaScript error object as consumed by the retry utilities:
optional `code` and `message` string properties and a `retryable` property. -/
structure JSError where
  code : Option String
  message : Option String
  retryable : JSBool
deriving DecidableEq, Repr

/-- JavaScript `s || d` for an optional string `s`: both `undefined` and the
empty string fall through to the default. -/
def jsOrS (s : Option String) (d : String) : String :=
  match s with
  | none => d
  | some v => if v = "" then d else v

/-- JavaScript `s || ''`: an absent string becomes the empty string. -/
def jsOrEmpty (s : Option String) : String :=
  match s with
  | none => ""
  | some v => v

/-- JavaScript `s.includes(pat)`: `pat` occurs as a contiguous substring. -/
def jsIncludes (s pat : String) : Bool :=
  decide (pat.toList <:+: s.toList)

/-- Structure `RetryConfig` from `src/types/index.ts`. -/
structure RetryConfig where
  maxAttempts : Nat
  baseDelay : Nat
  maxDelay : Nat
  backoffMultiplier : Nat
  retryableErrors : List String
deriving DecidableEq, Repr

/-- Constant `DEFAULT_RETRY_CONFIG` from `src/utils/retryUtils.ts`. -/
def DEFAULT_RETRY_CONFIG : RetryConfig :=
  { maxAttempts := 3
    baseDelay := 2000
    maxDelay := 10000
    backoffMultiplier := 2
    retryableErrors :=
      ["RESOURCE_EXHAUSTED", "DEADLINE_EXCEEDED", "UNAVAILABLE", "INTERNAL",
       "ECONNRESET", "ETIMEDOUT", "ENOTFOUND"] }

/-- Function `calculateBackoffDelay` from `src/utils/retryUtils.ts`:
`min(baseDelay * backoffMultiplier^(attempt-1), maxDelay)`.  The source uses
`Math.pow` on JavaScript numbers; for the 1-based attempt numbers the loop
ever passes the value is the integral one modelled here. -/
def calculateBackoffDelay (attempt : Nat) (config : RetryConfig) : Nat :=
  min (config.baseDelay * config.backoffMultiplier ^ (attempt - 1)) config.maxDelay

/-- Function `isRetryableError` from `src/utils/retryUtils.ts`: a falsy error is not
retryable; an explicit boolean `retryable` property takes precedence; else
the error is retryable iff `error.code || ''` or `error.message || ''`
contains one of the configured marker substrings. -/
def isRetryableError (error : Option JSError) (config : RetryConfig) : Bool :=
  match error with
  | none => false
  | some e =>
    match e.retryable with
    | .val true => true
    | .val false => false
    | _ =>
      let errorCode := jsOrEmpty e.code
      let errorMessage := jsOrEmpty e.message
      config.retryableErrors.any fun r =>
        jsIncludes errorCode r || jsIncludes errorMessage r

/-- One run of `retryWithBackoff`: the settled outcome, the list of backoff
sleeps performed (in order), and the total duration of the attempts made. -/
structure RetryRun (T : Type) where
  outcome : Except (Option JSError) T
  sleeps : List Nat
  attemptTime : Nat
deriving Repr

/-- The `for (attempt = 1; attempt <= maxAttempts; attempt++)` loop body of
`retryWithBackoff` from `src/utils/retryUtils.ts`.  `fn attempt` gives the
duration and outcome of the operation's `attempt`-th invocation.  `fuel`
counts the loop iterations that remain (`maxAttempts - attempt + 1`); when it
runs out the loop has exited and the trailing `throw lastError` fires. -/
def retryLoop (fn : Nat → Nat × Except JSError T) (config : RetryConfig) :
    Nat → Nat → Option JSError → RetryRun T
  | _, 0, lastError => ⟨.error lastError, [], 0⟩
  | attempt, fuel + 1, _ =>
    let dur := (fn attempt).1
    match (fn attempt).2 with
    | .ok t => ⟨.ok t, [], dur⟩
    | .error e =>
      if config.maxAttempts ≤ attempt ∨ isRetryableError (some e) config = false then
        ⟨.error (some e), [], dur⟩
      else
        let d := calculateBackoffDelay attempt config
        let rest := retryLoop fn config (attempt + 1) fuel (some e)
        ⟨rest.outcome, d :: rest.sleeps, dur + rest.attemptTime⟩

/-- Function `retryWithBackoff` from `src/utils/retryUtils.ts`: run the loop starting
at attempt 1 with `lastError` initially `undefined`. -/
def retryWithBackoff (fn : Nat → Nat × Except JSError T) (config : RetryConfig) : RetryRun T :=
  retryLoop fn config 1 config.maxAttempts none

/-- An asynchronous operation abstracted by when it settles and how. -/
structure AsyncOp (T : Type) where
  settleTime : Nat
  outcome : Except (Option JSError) T
deriving Repr

/-- The error rejected by `createTimeout` from `src/utils/retryUtils.ts`:
`code = 'TIMEOUT'`, `retryable = true`, the given (or default) message. -/
def createTimeoutError (message : String) : JSError :=
  { code := some "TIMEOUT", message := some message, retryable := .val true }

/-- Function `withTimeout` from `src/utils/retryUtils.ts`: race the operation against
a timer of `timeoutMs`; if the timer fires strictly first the result is the
distinguished timeout rejection, otherwise the operation's own settlement.
`createTimeout`'s message parameter defaults to `'Operation timed out'`. -/
def withTimeout (op : AsyncOp T) (timeoutMs : Nat) (timeoutMessage : Option String) : AsyncOp T :=
  if timeoutMs < op.settleTime then
    { settleTime := timeoutMs
      outcome := .error (some (createTimeoutError (timeoutMessage.getD "Operation timed out"))) }
  else op

/-- Function `retryWithBackoff` viewed as one asynchronous operation: it settles after
the total duration of every attempt made plus every backoff sleep. -/
def retryWithBackoffOp (fn : Nat → Nat × Except JSError T) (config : RetryConfig) : AsyncOp T :=
  let run := retryWithBackoff fn config
  { settleTime := run.attemptTime + run.sleeps.sum, outcome := run.outcome }

/-- The composition the orchestrator uses at `ocrController.ts` lines
198-216: `withTimeout(retryWithBackoff(rawCall), timeout, 'OCR processing
timed out')` — the timeout wraps the whole backoff-wrapped call. -/
def processRegionCall (fn : Nat → Nat × Except JSError T) (config : RetryConfig)
    (timeoutMs : Nat) : AsyncOp T :=
  withTimeout (retryWithBackoffOp fn config) timeoutMs (some "OCR processing timed out")

/-- The transient-error markers hard-coded in `GeminiService.processOCR`
(`src/services/geminiService.ts` lines 56-61). -/
def geminiRetryableErrors : List String :=
  ["RESOURCE_EXHAUSTED", "DEADLINE_EXCEEDED", "UNAVAILABLE", "INTERNAL"]

/-- The JavaScript value of
`err.message && retryableErrors.some(t => err.message.includes(t))`
computed by `GeminiService.processOCR`: if `err.message` is absent or empty
(falsy) the conjunction short-circuits to that falsy value itself, which is
`undefined` or `''`, not the boolean `false`. -/
def geminiIsRetryable (message : Option String) : JSBool :=
  match message with
  | none => .undef
  | some s =>
    if s = "" then .emptyStr
    else .val (geminiRetryableErrors.any fun t => jsIncludes s t)

/-- The error object thrown by the `catch` block of `GeminiService.processOCR`
(`src/services/geminiService.ts` lines 51-72) for an underlying error `err`:
`message = err.message || 'Failed to process image with Gemini'`,
`code = err.code || 'GEMINI_ERROR'`, `retryable = isRetryable`. -/
def geminiProcessOCRFailure (err : JSError) : JSError :=
  { message := some (jsOrS err.message "Failed to process image with Gemini")
    code := some (jsOrS err.code "GEMINI_ERROR")
    retryable := geminiIsRetryable err.message }

/-- Method `GeminiService.processOCR` as a function of the underlying vision call's
outcome: success returns the trimmed text, failure throws the classified
error object. -/
def geminiProcessOCR (visionOutcome : Except JSError String) : Except JSError String :=
  match visionOutcome with
  | .ok text => .ok text.trim
  | .error err => .error (geminiProcessOCRFailure err)

/-- Structure `Region` from `src/types/index.ts`.  Pixel geometry is a JavaScript
number, integral in every modelled scenario. -/
structure Region where
  id : String
  x : Int
  y : Int
  width : Int
  height : Int
  color : String
  label : Option String
deriving DecidableEq, Repr

/-- The outcome of `sharp(imagePath).metadata()` inside `validateRegions`:
either the read throws, or it yields optional pixel dimensions. -/
inductive MetaFetch where
  | fail
  | ok (width : Option Int) (height : Option Int)
deriving DecidableEq, Repr

/-- JavaScript `!metadata.width`: the dimension is falsy when absent or 0. -/
def dimFalsy (d : Option Int) : Bool :=
  match d with
  | none => true
  | some q => q = 0

/-- The error messages one region contributes inside the validation loop of
`ImageProcessingService.validateRegions` (`imageProcessingService.ts` lines
70-88), in push order: negative coordinates, beyond image width, beyond
image height, minimum 10x10 size. -/
def regionErrors (width height : Int) (r : Region) : List String :=
  (if r.x < 0 ∨ r.y < 0 then ["Region " ++ r.id ++ " has negative coordinates"] else []) ++
  (if width < r.x + r.width then ["Region " ++ r.id ++ " extends beyond image width"] else []) ++
  (if height < r.y + r.height then ["Region " ++ r.id ++ " extends beyond image height"] else []) ++
  (if r.width < 10 ∨ r.height < 10
    then ["Region " ++ r.id ++ " is too small (minimum 10x10 pixels)"] else [])

/-- Method `ImageProcessingService.validateRegions`: a failed metadata read yields
`{valid: false, errors: ['Failed to validate image']}`; falsy dimensions
yield `{valid: false, errors: ['Unable to read image dimensions']}`;
otherwise every region's violations are collected in order and
`valid` is `errors.length === 0`. -/
def validateRegions (meta : MetaFetch) (regions : List Region) : Bool × List String :=
  match meta with
  | .fail => (false, ["Failed to validate image"])
  | .ok w h =>
    if dimFalsy w || dimFalsy h then (false, ["Unable to read image dimensions"])
    else
      let errors := regions.flatMap (regionErrors (w.getD 0) (h.getD 0))
      (errors.length = 0, errors)

/-- Structure `ProcessedRegion` from `src/services/imageProcessingService.ts`.  The
cropped image bytes are an abstract byte list. -/
structure ProcessedRegion where
  regionId : String
  imageBuffer : List Nat
  mimeType : String
deriving DecidableEq, Repr

/-- Method `ImageProcessingService.cropRegions`: crop each region in input order
with the external `sharp ... extract` primitive `crop`; the first per-region
failure aborts the whole call with an error naming that region (fail-fast);
on success one `ProcessedRegion` per input region, in input order. -/
def cropRegions (crop : Region → Except Unit (List Nat)) :
    List Region → Except String (List ProcessedRegion)
  | [] => .ok []
  | r :: rs =>
    match crop r with
    | .error _ => .error ("Failed to process region " ++ r.id)
    | .ok buf =>
      match cropRegions crop rs with
      | .error msg => .error msg
      | .ok tail => .ok ({ regionId := r.id, imageBuffer := buf, mimeType := "image/png" } :: tail)

/-- The error entry of an `OCRResult` (`src/types/index.ts`). -/
structure OCRError where
  code : String
  message : String
  retryable : Bool
deriving DecidableEq, Repr

/-- Structure `OCRResult` from `src/types/index.ts` (the optional `confidence` field is
never written by the backend and is omitted). -/
structure OCRResult where
  regionId : String
  text : String
  processingTime : Nat
  error : Option OCRError
deriving DecidableEq, Repr

/-- Session status from `src/types/index.ts`. -/
inductive Status where
  | pending
  | processing
  | completed
  | failed
deriving DecidableEq, Repr

/-- Structure `OCRSession` from `src/types/index.ts`; timestamps are milliseconds. -/
structure Session where
  id : String
  imageId : String
  regions : List Region
  results : List OCRResult
  status : Status
  createdAt : Nat
  completedAt : Option Nat
deriving DecidableEq, Repr

/-- The external world one run of `processOCRAsync` interacts with:
whether an upload file matching the image id exists, the metadata read used
by validation, the per-region crop primitive, the settled outcome and
elapsed time of each region's awaited
`withTimeout(retryWithBackoff(() => geminiService.processOCR(...)))`
expression, the concurrency limit, and the clock value used for
`completedAt`. -/
structure OrchEnv where
  imageFound : Bool
  meta : MetaFetch
  crop : Region → Except Unit (List Nat)
  chain : ProcessedRegion → Except JSError String
  elapsed : ProcessedRegion → Nat
  concurrencyLimit : Nat
  now : Nat

/-- The per-region closure `processRegion` of `processOCRAsync`
(`ocrController.ts` lines 183-238): a successful chain yields a plain
result; any caught error yields a result with empty text and an error entry
whose `code` is `err.code || 'PROCESSING_ERROR'`, whose `message` is
`err.message || 'Failed to process region'`, and whose `retryable` is the
literal `false`. -/
def processRegion (p : ProcessedRegion) (chain : Except JSError String)
    (elapsed : Nat) : OCRResult :=
  match chain with
  | .ok text => { regionId := p.regionId, text := text, processingTime := elapsed, error := none }
  | .error err =>
    { regionId := p.regionId, text := "", processingTime := elapsed
      error := some
        { code := jsOrS err.code "PROCESSING_ERROR"
          message := jsOrS err.message "Failed to process region"
          retryable := false } }

/-- Fuelled form of the batching loop
`for (let i = 0; i < length; i += concurrencyLimit) batches.push(slice(i, i + limit))`
of `processOCRAsync` (`ocrController.ts` lines 246-249).  Each iteration with
`1 ≤ k` consumes at least one element, so fuel `l.length` is exact. -/
def chunkFuel (k : Nat) : Nat → List α → List (List α)
  | 0, _ => []
  | _, [] => []
  | fuel + 1, a :: l => (a :: l).take k :: chunkFuel k fuel ((a :: l).drop k)

/-- The batch partition built by `processOCRAsync`: consecutive slices of
size `k` (the concurrency limit) in original order. -/
def chunkList (k : Nat) (l : List α) : List (List α) :=
  chunkFuel k l.length l

/-- The full results list `processOCRAsync` appends: batches in order, and
within each batch the `Promise.all` output, which is in batch member order. -/
def orchAllResults (env : OrchEnv) (processed : List ProcessedRegion) : List OCRResult :=
  (chunkList env.concurrencyLimit processed).flatMap fun batch =>
    batch.map fun p => processRegion p (env.chain p) (env.elapsed p)

/-- The `catch` path of `processOCRAsync`: mark the session failed and stamp
`completedAt`; `results` is left as it is. -/
def failSession (s : Session) (now : Nat) : Session :=
  { s with status := .failed, completedAt := some now }

/-- Function `processOCRAsync` (`ocrController.ts` lines 148-272) as a transformer of
the session it mutates: image lookup failure, region validation failure and
crop failure all throw into the catch-all and mark the session failed;
otherwise every batch's results are appended and the session is completed.
This covers the orchestrator's own writes (result appends, status,
`completedAt`); the concurrent in-place `error.message` rewrites performed
by the retry observer of `ocrController.ts` lines 202-212 — which never add,
remove or reorder results and never touch status or timestamps — are
modelled separately by `applyRetryEvent` and interleaved with the appends in
`orchResultStates`. -/
def processOCRAsync (env : OrchEnv) (s : Session) : Session :=
  if env.imageFound then
    if (validateRegions env.meta s.regions).1 then
      match cropRegions env.crop s.regions with
      | .error _ => failSession s env.now
      | .ok processed =>
        { s with results := s.results ++ orchAllResults env processed
                 status := .completed
                 completedAt := some env.now }
    else failSession s env.now
  else failSession s env.now

/-- Every state the orchestrator's own writes produce during
`processOCRAsync`, in order: on the fault paths the initial state then the
failed state; on the success path the state after each single
`session.results.push` (the pushes happen batch by batch, in order), then
the completed state.  The retry observer's concurrent `error.message`
rewrites (which change no result's length, identity, text, code or
retryability, and no status) are modelled by `applyRetryEvent`; the batch
evolution with those rewrites interleaved is `orchResultStates`. -/
def orchTrace (env : OrchEnv) (s : Session) : List Session :=
  if env.imageFound then
    if (validateRegions env.meta s.regions).1 then
      match cropRegions env.crop s.regions with
      | .error _ => [s, failSession s env.now]
      | .ok processed =>
        let all := orchAllResults env processed
        ((List.range (all.length + 1)).map fun k => { s with results := s.results ++ all.take k })
          ++ [{ s with results := s.results ++ all
                       status := .completed
                       completedAt := some env.now }]
    else [s, failSession s env.now]
  else [s, failSession s env.now]

/-- The payload `getOCRStatus` responds with (`ocrController.ts` lines
125-142). -/
structure StatusPayload where
  sessionId : String
  results : List OCRResult
  processingTime : Int
  success : Bool
  status : Status
  progressCurrent : Nat
  progressTotal : Nat
deriving DecidableEq, Repr

/-- Handler `getOCRStatus` (`ocrController.ts` lines 101-146): look the session up
(`none` is the 404 path); `processingTime` is `completedAt - createdAt` when
`completedAt` is set, else `Date.now() - createdAt`; `success` is
`status === 'completed'`; progress is results count over regions count.
The handler reads the store and never writes it. -/
def getOCRStatus (store : List (String × Session)) (sessionId : String)
    (now : Nat) : Option StatusPayload :=
  match store.lookup sessionId with
  | none => none
  | some session =>
    some
      { sessionId := session.id
        results := session.results
        processingTime :=
          match session.completedAt with
          | some t => (t : Int) - (session.createdAt : Int)
          | none => (now : Int) - (session.createdAt : Int)
        success := session.status = .completed
        status := session.status
        progressCurrent := session.results.length
        progressTotal := session.regions.length }

/-- One firing of the retry observer passed to `retryWithBackoff` by
`processOCRAsync` (`ocrController.ts` lines 202-212): the region whose
retry loop fired, the attempt number, and the failing attempt's error.
Because `Promise.race` never cancels the inner loop, such events can fire
at any later point of the run — during later batches and even after the
session is completed, when an outer timeout already pushed the region's
result and abandoned the loop. -/
structure RetryEvent where
  regionId : String
  attempt : Nat
  error : JSError
deriving DecidableEq, Repr

/-- JavaScript template interpolation `${x}` of a possibly-absent string:
`undefined` renders as the text "undefined". -/
def jsTemplate (s : Option String) : String :=
  match s with
  | none => "undefined"
  | some v => v

/-- The message the observer writes:
`` `Retry attempt ${attempt}: ${error.message}` ``. -/
def retryEventText (ev : RetryEvent) : String :=
  "Retry attempt " ++ toString ev.attempt ++ ": " ++ jsTemplate ev.error.message

/-- The observer's session mutation (`ocrController.ts` lines 205-211):
`results.find(r => r.regionId === ...)` takes the first result with the
event's region id; if it exists and has an error entry, its
`error.message` is overwritten in place; otherwise nothing happens. -/
def applyRetryEvent (ev : RetryEvent) : List OCRResult → List OCRResult
  | [] => []
  | r :: rs =>
    if r.regionId = ev.regionId then
      (match r.error with
       | none => r
       | some e => { r with error := some { e with message := retryEventText ev } }) :: rs
    else r :: applyRetryEvent ev rs

/-- A sequence of observer firings applied in order. -/
def applyRetryEvents (evs : List RetryEvent) (rs : List OCRResult) : List OCRResult :=
  evs.foldl (fun acc ev => applyRetryEvent ev acc) rs

/-- An `OCRResult` with its error message blanked: the projection that the
observer mutation cannot affect (region id, text, processing time, error
presence, error code, error retryability). -/
def scrubMessage (r : OCRResult) : OCRResult :=
  { r with error := r.error.map fun e => { e with message := "" } }

/-- The pristine per-batch outputs of the dispatch loop: for each batch of
`chunkList`, the `Promise.all` results in batch member order. -/
def batchOutputs (env : OrchEnv) (processed : List ProcessedRegion) : List (List OCRResult) :=
  (chunkList env.concurrencyLimit processed).map fun batch =>
    batch.map fun p => processRegion p (env.chain p) (env.elapsed p)

/-- The session's results list at each batch boundary of the run, with the
concurrent observer mutations interleaved: `schedule (j+1)` is the list of
observer events that fire while batch `j+1` is in flight (they mutate the
results already stored, before the batch's own results are appended —
the append itself, a synchronous `forEach` of pushes, cannot be
interleaved). -/
def orchResultStates (env : OrchEnv) (schedule : Nat → List RetryEvent) (s : Session)
    (processed : List ProcessedRegion) : Nat → List OCRResult
  | 0 => s.results
  | j + 1 =>
    applyRetryEvents (schedule (j + 1)) (orchResultStates env schedule s processed j) ++
      (batchOutputs env processed).getD j []

/-! ### Lemmas about the retry loop -/

theorem retryLoop_ok (fn : Nat → Nat × Except JSError T) (config : RetryConfig)
    (attempt fuel : Nat) (last : Option JSError) {t : T} (h : (fn attempt).2 = .ok t) :
    retryLoop fn config attempt (fuel + 1) last = ⟨.ok t, [], (fn attempt).1⟩ := by
  simp only [retryLoop, h]

theorem retryLoop_stop (fn : Nat → Nat × Except JSError T) (config : RetryConfig)
    (attempt fuel : Nat) (last : Option JSError) {e : JSError} (h : (fn attempt).2 = .error e)
    (hstop : config.maxAttempts ≤ attempt ∨ isRetryableError (some e) config = false) :
    retryLoop fn config attempt (fuel + 1) last = ⟨.error (some e), [], (fn attempt).1⟩ := by
  simp only [retryLoop, h, if_pos hstop]

theorem retryLoop_retry (fn : Nat → Nat × Except JSError T) (config : RetryConfig)
    (attempt fuel : Nat) (last : Option JSError) {e : JSError} (h : (fn attempt).2 = .error e)
    (hlt : attempt < config.maxAttempts) (hr : isRetryableError (some e) config = true) :
    retryLoop fn config attempt (fuel + 1) last =
      ⟨(retryLoop fn config (attempt + 1) fuel (some e)).outcome,
       calculateBackoffDelay attempt config :: (retryLoop fn config (attempt + 1) fuel (some e)).sleeps,
       (fn attempt).1 + (retryLoop fn config (attempt + 1) fuel (some e)).attemptTime⟩ := by
  have hneg : ¬ (config.maxAttempts ≤ attempt ∨ isRetryableError (some e) config = false) := by
    simp [hr, Nat.not_le.mpr hlt]
  simp only [retryLoop, h, if_neg hneg]

/-- A run under the default configuration whose first two attempts fail with
retryable errors: it sleeps 2000ms then 4000ms, and the third attempt's
outcome is final either way. -/
theorem retryWithBackoff_two_failures (fn : Nat → Nat × Except JSError T) (e1 e2 : JSError)
    (h1 : (fn 1).2 = .error e1) (h2 : (fn 2).2 = .error e2)
    (hr1 : isRetryableError (some e1) DEFAULT_RETRY_CONFIG = true)
    (hr2 : isRetryableError (some e2) DEFAULT_RETRY_CONFIG = true) :
    retryWithBackoff fn DEFAULT_RETRY_CONFIG =
      ⟨(fn 3).2.mapError some, [2000, 4000], (fn 1).1 + ((fn 2).1 + (fn 3).1)⟩ := by
  have step3 : ∀ last, retryLoop fn DEFAULT_RETRY_CONFIG (1 + 1 + 1) (0 + 1) last =
      ⟨(fn 3).2.mapError some, [], (fn 3).1⟩ := by
    intro last
    cases h3 : (fn 3).2 with
    | ok t =>
      rw [retryLoop_ok fn DEFAULT_RETRY_CONFIG (1+1+1) 0 last (t := t) (by exact h3)]
      simp [Except.mapError]
    | error e =>
      rw [retryLoop_stop fn DEFAULT_RETRY_CONFIG (1+1+1) 0 last (e := e) (by exact h3)
        (Or.inl (by decide))]
      simp [Except.mapError]
  have step2 : retryLoop fn DEFAULT_RETRY_CONFIG (1 + 1) (1 + 1) (some e1) =
      ⟨(fn 3).2.mapError some, [4000], (fn 2).1 + (fn 3).1⟩ := by
    rw [retryLoop_retry fn DEFAULT_RETRY_CONFIG (1+1) 1 (some e1) (e := e2) (by exact h2)
      (by decide) hr2]
    have h1eq : (1:Nat) = 0 + 1 := rfl
    rw [h1eq, step3]
    norm_num [calculateBackoffDelay, DEFAULT_RETRY_CONFIG]
  have step1 : retryLoop fn DEFAULT_RETRY_CONFIG 1 (1 + 1 + 1) none =
      ⟨(fn 3).2.mapError some, [2000, 4000], (fn 1).1 + ((fn 2).1 + (fn 3).1)⟩ := by
    rw [retryLoop_retry fn DEFAULT_RETRY_CONFIG 1 (1+1) none (e := e1) h1 (by decide) hr1]
    rw [step2]
    norm_num [calculateBackoffDelay, DEFAULT_RETRY_CONFIG]
  have hdef : retryWithBackoff fn DEFAULT_RETRY_CONFIG =
      retryLoop fn DEFAULT_RETRY_CONFIG 1 (1+1+1) none := rfl
  rw [hdef, step1]

/-! ### Claim theorems -/

/-- Claim C3: under the default retry configuration (baseDelay 2000,
multiplier 2, maxDelay 10000, maxAttempts 3), `calculateBackoffDelay n`
equals `min (2000 * 2^(n-1)) 10000` for every attempt `n ≥ 1` and is always
capped at 10000, and a run of `retryWithBackoff` that fails retryably on
attempts 1 and 2 sleeps exactly 2000ms then 4000ms before the third, final
attempt, whose outcome is propagated. -/
theorem claim_C3 (fn : Nat → Nat × Except JSError String) (e1 e2 : JSError)
    (h1 : (fn 1).2 = .error e1) (h2 : (fn 2).2 = .error e2)
    (hr1 : isRetryableError (some e1) DEFAULT_RETRY_CONFIG = true)
    (hr2 : isRetryableError (some e2) DEFAULT_RETRY_CONFIG = true) :
    (∀ n, 1 ≤ n → calculateBackoffDelay n DEFAULT_RETRY_CONFIG = min (2000 * 2 ^ (n - 1)) 10000) ∧
    (∀ n, calculateBackoffDelay n DEFAULT_RETRY_CONFIG ≤ 10000) ∧
    (retryWithBackoff fn DEFAULT_RETRY_CONFIG).sleeps = [2000, 4000] ∧
    (retryWithBackoff fn DEFAULT_RETRY_CONFIG).outcome = (fn 3).2.mapError some := by
  have key := retryWithBackoff_two_failures fn e1 e2 h1 h2 hr1 hr2
  refine ⟨fun n _ => rfl, fun n => min_le_right _ _, ?_, ?_⟩ <;> rw [key]

/-- The concrete operation used to witness C3: attempts 1 and 2 fail with a
retryable error, attempt 3 succeeds. -/
def c3fn : Nat → Nat × Except JSError String :=
  fun n =>
    (1, if n < 3 then .error { code := some "UNAVAILABLE", message := none, retryable := .undef }
        else .ok "done")

/-- Witness for C3 at a concrete operation. -/
theorem claim_C3_witness :
    (∀ n, 1 ≤ n → calculateBackoffDelay n DEFAULT_RETRY_CONFIG = min (2000 * 2 ^ (n - 1)) 10000) ∧
    (∀ n, calculateBackoffDelay n DEFAULT_RETRY_CONFIG ≤ 10000) ∧
    (retryWithBackoff c3fn DEFAULT_RETRY_CONFIG).sleeps = [2000, 4000] ∧
    (retryWithBackoff c3fn DEFAULT_RETRY_CONFIG).outcome = (c3fn 3).2.mapError some :=
  claim_C3 c3fn
    { code := some "UNAVAILABLE", message := none, retryable := .undef }
    { code := some "UNAVAILABLE", message := none, retryable := .undef }
    rfl rfl (by decide) (by decide)

/-- Claim C4: an error carrying an explicit `retryable: false` is propagated
unchanged after the first failing attempt with no sleep, for every
configuration with at least one attempt — even if its code or message
contains a configured marker; conversely an explicit `retryable: true` makes
the error retryable regardless of markers, and the loop then actually sleeps
and retries when attempts remain. -/
theorem claim_C4 (fn : Nat → Nat × Except JSError String) (config : RetryConfig) (e : JSError)
    (hmax : 1 ≤ config.maxAttempts) (h1 : (fn 1).2 = .error e) :
    (e.retryable = .val false →
       (retryWithBackoff fn config).outcome = .error (some e) ∧
       (retryWithBackoff fn config).sleeps = []) ∧
    (e.retryable = .val true → isRetryableError (some e) config = true) ∧
    (e.retryable = .val true → 2 ≤ config.maxAttempts →
       ∃ rest, (retryWithBackoff fn config).sleeps = calculateBackoffDelay 1 config :: rest) := by
  obtain ⟨m, hm⟩ : ∃ m, config.maxAttempts = m + 1 :=
    ⟨config.maxAttempts - 1, (Nat.succ_pred_eq_of_pos hmax).symm⟩
  have hrw : retryWithBackoff fn config = retryLoop fn config 1 (m + 1) none := by
    rw [retryWithBackoff, hm]
  refine ⟨?_, ?_, ?_⟩
  · intro hf
    have hnr : isRetryableError (some e) config = false := by
      simp [isRetryableError, hf]
    rw [hrw, retryLoop_stop fn config 1 m none h1 (Or.inr hnr)]
    exact ⟨rfl, rfl⟩
  · intro ht
    simp [isRetryableError, ht]
  · intro ht h2
    have hr : isRetryableError (some e) config = true := by simp [isRetryableError, ht]
    rw [hrw, retryLoop_retry fn config 1 m none h1 h2 hr]
    exact ⟨_, rfl⟩

/-- The concrete error used to witness C4: explicitly `retryable: false`
while both code and message contain the `UNAVAILABLE` marker. -/
def c4err : JSError :=
  { code := some "UNAVAILABLE", message := some "503 UNAVAILABLE", retryable := .val false }

/-- The concrete operation used to witness C4: every attempt fails with
`c4err`. -/
def c4fn : Nat → Nat × Except JSError String := fun _ => (1, .error c4err)

/-- Witness for C4 at a concrete operation and the default configuration. -/
theorem claim_C4_witness :
    (c4err.retryable = .val false →
       (retryWithBackoff c4fn DEFAULT_RETRY_CONFIG).outcome = .error (some c4err) ∧
       (retryWithBackoff c4fn DEFAULT_RETRY_CONFIG).sleeps = []) ∧
    (c4err.retryable = .val true → isRetryableError (some c4err) DEFAULT_RETRY_CONFIG = true) ∧
    (c4err.retryable = .val true → 2 ≤ DEFAULT_RETRY_CONFIG.maxAttempts →
       ∃ rest, (retryWithBackoff c4fn DEFAULT_RETRY_CONFIG).sleeps =
         calculateBackoffDelay 1 DEFAULT_RETRY_CONFIG :: rest) :=
  claim_C4 c4fn DEFAULT_RETRY_CONFIG c4err (by decide) rfl

/-- Claim C7: when the timer expires strictly before the wrapped operation
settles, `withTimeout` rejects with the distinguished error (code `TIMEOUT`,
retryable `true`, the configured or default message) at the deadline; and in
the orchestrator's composition `withTimeout(retryWithBackoff(rawCall))` the
single deadline bounds the settle time of the whole composed call — whose
un-timed settle time is the total of every attempt duration plus every
backoff sleep, not a per-attempt quantity. -/
theorem claim_C7 (op : AsyncOp String) (fn : Nat → Nat × Except JSError String)
    (config : RetryConfig) (t : Nat) (msg : Option String) (h : t < op.settleTime) :
    (withTimeout op t msg).outcome =
      .error (some { code := some "TIMEOUT", message := some (msg.getD "Operation timed out"),
                     retryable := .val true }) ∧
    (withTimeout op t msg).settleTime = t ∧
    (processRegionCall fn config t).settleTime ≤ t ∧
    ((retryWithBackoffOp fn config).settleTime =
      (retryWithBackoff fn config).attemptTime + (retryWithBackoff fn config).sleeps.sum) := by
  refine ⟨?_, ?_, ?_, rfl⟩
  · simp [withTimeout, if_pos h, createTimeoutError]
  · simp [withTimeout, if_pos h]
  · have hdef : processRegionCall fn config t =
        withTimeout (retryWithBackoffOp fn config) t (some "OCR processing timed out") := rfl
    rw [hdef, withTimeout]
    split
    · simp
    · next hc => exact Nat.le_of_not_lt hc

/-- Witness for C7 at a concrete operation that settles after the deadline. -/
theorem claim_C7_witness :
    (withTimeout (⟨10, .ok "x"⟩ : AsyncOp String) 5 none).outcome =
      .error (some { code := some "TIMEOUT", message := some ((none : Option String).getD "Operation timed out"),
                     retryable := .val true }) ∧
    (withTimeout (⟨10, .ok "x"⟩ : AsyncOp String) 5 none).settleTime = 5 ∧
    (processRegionCall (fun _ => (1, .ok "x")) DEFAULT_RETRY_CONFIG 5).settleTime ≤ 5 ∧
    ((retryWithBackoffOp (fun _ => (1, .ok "x")) DEFAULT_RETRY_CONFIG).settleTime =
      (retryWithBackoff (fun (_ : Nat) => ((1 : Nat), (.ok "x" : Except JSError String))) DEFAULT_RETRY_CONFIG).attemptTime +
      (retryWithBackoff (fun (_ : Nat) => ((1 : Nat), (.ok "x" : Except JSError String))) DEFAULT_RETRY_CONFIG).sleeps.sum) :=
  claim_C7 ⟨10, .ok "x"⟩ (fun _ => (1, .ok "x")) DEFAULT_RETRY_CONFIG 5 none (by decide)

/-- Counterexample to C8 as stated: for an underlying error with no message
(and code `UNAVAILABLE`), the propagated `retryable` field is the JavaScript
value `undefined` — the short-circuited `err.message && ...` — not the
boolean `false` the claim asserts.  The difference is observable: the
backoff utility's explicit-flag check (`=== false`) does not fire on
`undefined`, falls through to its marker scan, and classifies this very
error as retryable. -/
theorem claim_C8_counterexample :
    (geminiProcessOCRFailure
        { code := some "UNAVAILABLE", message := none, retryable := .undef }).retryable = .undef ∧
    JSBool.undef ≠ JSBool.val false ∧
    isRetryableError
      (some (geminiProcessOCRFailure
        { code := some "UNAVAILABLE", message := none, retryable := .undef }))
      DEFAULT_RETRY_CONFIG = true := by
  refine ⟨rfl, by decide, by decide⟩

/-- Claim C8 (amended): for every failing vision call,
`GeminiService.processOCR` propagates an error whose `retryable` field is
the boolean `true` iff the underlying error has a nonempty message
containing one of the markers RESOURCE_EXHAUSTED, DEADLINE_EXCEEDED,
UNAVAILABLE, INTERNAL, and the boolean `false` when a nonempty message
contains no marker; when the underlying error's message is absent (resp.
empty) the field is the falsy non-boolean `undefined` (resp. `''`), not
`false`.  The `code` field equals the underlying error's code when that is
present and nonempty, and `GEMINI_ERROR` otherwise, and the message is
defaulted likewise. -/
theorem claim_C8 (err : JSError) :
    ((geminiProcessOCRFailure err).retryable = .val true ↔
       ∃ s, err.message = some s ∧ (geminiRetryableErrors.any fun m => jsIncludes s m) = true) ∧
    (∀ s, err.message = some s → s ≠ "" →
       (geminiProcessOCRFailure err).retryable =
         .val (geminiRetryableErrors.any fun m => jsIncludes s m)) ∧
    (err.message = none → (geminiProcessOCRFailure err).retryable = .undef) ∧
    (err.message = some "" → (geminiProcessOCRFailure err).retryable = .emptyStr) ∧
    (∀ c, err.code = some c → c ≠ "" → (geminiProcessOCRFailure err).code = some c) ∧
    ((err.code = none ∨ err.code = some "") →
       (geminiProcessOCRFailure err).code = some "GEMINI_ERROR") ∧
    ((geminiProcessOCRFailure err).message =
       some (jsOrS err.message "Failed to process image with Gemini")) := by
  have hempty : (geminiRetryableErrors.any fun m => jsIncludes "" m) = false := by decide
  refine ⟨?_, ?_, ?_, ?_, ?_, ?_, rfl⟩
  · cases hm : err.message with
    | none => simp [geminiProcessOCRFailure, geminiIsRetryable, hm]
    | some s =>
      by_cases hs : s = ""
      · subst hs
        simp [geminiProcessOCRFailure, geminiIsRetryable, hm]
        decide
      · simp [geminiProcessOCRFailure, geminiIsRetryable, hm, hs]
  · intro s hm hs
    simp [geminiProcessOCRFailure, geminiIsRetryable, hm, hs]
  · intro hm
    simp [geminiProcessOCRFailure, geminiIsRetryable, hm]
  · intro hm
    simp [geminiProcessOCRFailure, geminiIsRetryable, hm]
  · intro c hc hcne
    simp [geminiProcessOCRFailure, jsOrS, hc, hcne]
  · intro hc
    rcases hc with hc | hc <;> simp [geminiProcessOCRFailure, jsOrS, hc]

/-- Witness for the amended C8 at a concrete underlying error whose message
contains the UNAVAILABLE marker and which carries no code. -/
theorem claim_C8_witness :
    ((geminiProcessOCRFailure { code := none, message := some "503 UNAVAILABLE", retryable := .undef }).retryable = .val true ↔
       ∃ s, (some "503 UNAVAILABLE" : Option String) = some s ∧
         (geminiRetryableErrors.any fun m => jsIncludes s m) = true) ∧
    (∀ s, (some "503 UNAVAILABLE" : Option String) = some s → s ≠ "" →
       (geminiProcessOCRFailure { code := none, message := some "503 UNAVAILABLE", retryable := .undef }).retryable =
         .val (geminiRetryableErrors.any fun m => jsIncludes s m)) ∧
    ((some "503 UNAVAILABLE" : Option String) = none →
       (geminiProcessOCRFailure { code := none, message := some "503 UNAVAILABLE", retryable := .undef }).retryable = .undef) ∧
    ((some "503 UNAVAILABLE" : Option String) = some "" →
       (geminiProcessOCRFailure { code := none, message := some "503 UNAVAILABLE", retryable := .undef }).retryable = .emptyStr) ∧
    (∀ c, (none : Option String) = some c → c ≠ "" →
       (geminiProcessOCRFailure { code := none, message := some "503 UNAVAILABLE", retryable := .undef }).code = some c) ∧
    (((none : Option String) = none ∨ (none : Option String) = some "") →
       (geminiProcessOCRFailure { code := none, message := some "503 UNAVAILABLE", retryable := .undef }).code = some "GEMINI_ERROR") ∧
    ((geminiProcessOCRFailure { code := none, message := some "503 UNAVAILABLE", retryable := .undef }).message =
       some (jsOrS (some "503 UNAVAILABLE") "Failed to process image with Gemini")) := by
  exact claim_C8 { code := none, message := some "503 UNAVAILABLE", retryable := .undef }

/-- The concrete thrown error used against C2: it carries an explicit
`retryable: true`. -/
def c2err : JSError :=
  { code := some "SOME_CODE", message := some "boom", retryable := .val true }

/-- Counterexample to C2 as stated: the thrown error carries
`retryable: true`, yet the recorded `OCRResult.error.retryable` is `false` —
`processRegion` hard-codes `retryable: false` instead of taking the field
from the thrown error. -/
theorem claim_C2_counterexample :
    ((processRegion ⟨"r1", [], "image/png"⟩ (.error c2err) 5).error.map OCRError.retryable)
        = some false ∧
    c2err.retryable = .val true := by
  exact ⟨rfl, rfl⟩

/-- Claim C2 (amended): any error thrown while processing a batch member is
caught locally by `processRegion` and converted into an `OCRResult` whose
error entry takes `code` and `message` from the thrown error when present
(nonempty) and defaults them otherwise, and whose `retryable` is always the
literal `false` (not taken from the thrown error); and such per-region
errors never make the session failed: whenever the top-level steps (image
lookup, validation, cropping) succeed, the session completes no matter what
every region's processing chain throws. -/
theorem claim_C2 (p : ProcessedRegion) (err : JSError) (elapsed : Nat)
    (env : OrchEnv) (s : Session) (processed : List ProcessedRegion)
    (himg : env.imageFound = true) (hval : (validateRegions env.meta s.regions).1 = true)
    (hcrop : cropRegions env.crop s.regions = .ok processed) :
    ((processRegion p (.error err) elapsed).error =
       some { code := jsOrS err.code "PROCESSING_ERROR"
              message := jsOrS err.message "Failed to process region"
              retryable := false }) ∧
    ((processRegion p (.error err) elapsed).text = "") ∧
    (∀ c, err.code = some c → c ≠ "" →
       (processRegion p (.error err) elapsed).error.map OCRError.code = some c) ∧
    ((err.code = none ∨ err.code = some "") →
       (processRegion p (.error err) elapsed).error.map OCRError.code = some "PROCESSING_ERROR") ∧
    (∀ m, err.message = some m → m ≠ "" →
       (processRegion p (.error err) elapsed).error.map OCRError.message = some m) ∧
    ((processRegion p (.error err) elapsed).error.map OCRError.retryable = some false) ∧
    ((processOCRAsync env s).status = .completed) := by
  refine ⟨rfl, rfl, ?_, ?_, ?_, rfl, ?_⟩
  · intro c hc hcne
    simp [processRegion, jsOrS, hc, hcne]
  · intro hc
    rcases hc with hc | hc <;> simp [processRegion, jsOrS, hc]
  · intro m hm hmne
    simp [processRegion, jsOrS, hm, hmne]
  · simp [processOCRAsync, himg, hval, hcrop]

/-- The concrete environment used to witness C2: the image is found,
validation and cropping succeed (no regions), and every chain throws. -/
def c2env : OrchEnv :=
  { imageFound := true
    meta := .ok (some 100) (some 100)
    crop := fun _ => .ok []
    chain := fun _ => .error c2err
    elapsed := fun _ => 0
    concurrencyLimit := 3
    now := 7 }

/-- The concrete freshly-created session used to witness C2. -/
def c2sess : Session :=
  { id := "s1", imageId := "img1", regions := [], results := []
    status := .processing, createdAt := 0, completedAt := none }

/-- Witness for the amended C2 at a concrete thrown error and environment. -/
theorem claim_C2_witness :
    ((processRegion ⟨"r9", [], "image/png"⟩ (.error c2err) 5).error =
       some { code := jsOrS c2err.code "PROCESSING_ERROR"
              message := jsOrS c2err.message "Failed to process region"
              retryable := false }) ∧
    ((processRegion ⟨"r9", [], "image/png"⟩ (.error c2err) 5).text = "") ∧
    (∀ c, c2err.code = some c → c ≠ "" →
       (processRegion ⟨"r9", [], "image/png"⟩ (.error c2err) 5).error.map OCRError.code = some c) ∧
    ((c2err.code = none ∨ c2err.code = some "") →
       (processRegion ⟨"r9", [], "image/png"⟩ (.error c2err) 5).error.map OCRError.code = some "PROCESSING_ERROR") ∧
    (∀ m, c2err.message = some m → m ≠ "" →
       (processRegion ⟨"r9", [], "image/png"⟩ (.error c2err) 5).error.map OCRError.message = some m) ∧
    ((processRegion ⟨"r9", [], "image/png"⟩ (.error c2err) 5).error.map OCRError.retryable = some false) ∧
    ((processOCRAsync c2env c2sess).status = .completed) :=
  claim_C2 ⟨"r9", [], "image/png"⟩ c2err 5 c2env c2sess [] rfl (by decide) rfl

/-- Spec-side reading of the validation rules: a region passes all four
checks — non-negative coordinates, within image width, within image height,
at least 10x10 pixels. -/
def regionOk (width height : Int) (r : Region) : Prop :=
  0 ≤ r.x ∧ 0 ≤ r.y ∧ r.x + r.width ≤ width ∧ r.y + r.height ≤ height ∧
    10 ≤ r.width ∧ 10 ≤ r.height

/-- Spec-side count of the validation rules a region violates (the negative
coordinate pair counts as one rule, as does the minimum-size pair). -/
def violatedRuleCount (width height : Int) (r : Region) : Nat :=
  (if r.x < 0 ∨ r.y < 0 then 1 else 0) +
  (if width < r.x + r.width then 1 else 0) +
  (if height < r.y + r.height then 1 else 0) +
  (if r.width < 10 ∨ r.height < 10 then 1 else 0)

theorem regionErrors_eq_nil (width height : Int) (r : Region) :
    regionErrors width height r = [] ↔ regionOk width height r := by
  unfold regionErrors regionOk
  split_ifs with h1 h2 h3 h4 <;>
    simp_all [not_or, not_lt] <;> omega

theorem regionErrors_length (width height : Int) (r : Region) :
    (regionErrors width height r).length = violatedRuleCount width height r := by
  unfold regionErrors violatedRuleCount
  split_ifs <;> simp

theorem validateRegions_readable (width height : Int) (hw : width ≠ 0) (hh : height ≠ 0)
    (regions : List Region) :
    validateRegions (.ok (some width) (some height)) regions =
      (decide ((regions.flatMap (regionErrors width height)).length = 0),
       regions.flatMap (regionErrors width height)) := by
  unfold validateRegions
  simp [dimFalsy, hw, hh]

/-- Claim C6: on a readable image, `validateRegions` collects one error
message per violated rule per region without short-circuiting, `valid` holds
iff the collected list is empty iff every region passes all rules; a region
fully inside the image with width and height at least 10 (width exactly 10
included) contributes no error, and any region with a negative coordinate
makes the whole validation invalid. -/
theorem claim_C6 (width height : Int) (hw : width ≠ 0) (hh : height ≠ 0)
    (regions : List Region) :
    ((validateRegions (.ok (some width) (some height)) regions).1 = true ↔
       ∀ r ∈ regions, regionOk width height r) ∧
    ((validateRegions (.ok (some width) (some height)) regions).1 = true ↔
       (validateRegions (.ok (some width) (some height)) regions).2 = []) ∧
    ((validateRegions (.ok (some width) (some height)) regions).2.length =
       (regions.map (violatedRuleCount width height)).sum) ∧
    (∀ r ∈ regions, (r.x < 0 ∨ r.y < 0) →
       (validateRegions (.ok (some width) (some height)) regions).1 = false) ∧
    (∀ r, regionOk width height r → regionErrors width height r = []) := by
  have hv := validateRegions_readable width height hw hh regions
  have hiff : (validateRegions (.ok (some width) (some height)) regions).1 = true ↔
      ∀ r ∈ regions, regionOk width height r := by
    rw [hv]
    show decide ((regions.flatMap (regionErrors width height)).length = 0) = true ↔ _
    rw [decide_eq_true_eq, List.length_eq_zero, List.flatMap_eq_nil_iff]
    simp only [regionErrors_eq_nil]
  refine ⟨hiff, ?_, ?_, ?_, fun r => (regionErrors_eq_nil width height r).mpr⟩
  · rw [hv]
    show decide ((regions.flatMap (regionErrors width height)).length = 0) = true ↔
      regions.flatMap (regionErrors width height) = []
    rw [decide_eq_true_eq]
    exact List.length_eq_zero
  · rw [hv]
    simp only [List.length_flatMap]
    exact congrArg List.sum (List.map_congr_left fun r _ => regionErrors_length width height r)
  · intro r hr hneg
    cases hb : (validateRegions (.ok (some width) (some height)) regions).1 with
    | true =>
      exfalso
      rcases hiff.mp hb r hr with ⟨hx, hy, -⟩
      rcases hneg with hneg | hneg <;> omega
    | false => rfl

/-- Witness for C6 on a 100x100 image with one region exactly at the 10x10
minimum (valid) and one with a negative x (invalid). -/
theorem claim_C6_witness :
    ((validateRegions (.ok (some 100) (some 100))
        [⟨"in", 0, 0, 10, 10, "#00F", none⟩, ⟨"neg", -1, 2, 20, 20, "#F00", none⟩]).1 = true ↔
       ∀ r ∈ [⟨"in", 0, 0, 10, 10, "#00F", none⟩, (⟨"neg", -1, 2, 20, 20, "#F00", none⟩ : Region)],
         regionOk 100 100 r) ∧
    ((validateRegions (.ok (some 100) (some 100))
        [⟨"in", 0, 0, 10, 10, "#00F", none⟩, ⟨"neg", -1, 2, 20, 20, "#F00", none⟩]).1 = true ↔
       (validateRegions (.ok (some 100) (some 100))
        [⟨"in", 0, 0, 10, 10, "#00F", none⟩, ⟨"neg", -1, 2, 20, 20, "#F00", none⟩]).2 = []) ∧
    ((validateRegions (.ok (some 100) (some 100))
        [⟨"in", 0, 0, 10, 10, "#00F", none⟩, ⟨"neg", -1, 2, 20, 20, "#F00", none⟩]).2.length =
       ([⟨"in", 0, 0, 10, 10, "#00F", none⟩, (⟨"neg", -1, 2, 20, 20, "#F00", none⟩ : Region)].map
         (violatedRuleCount 100 100)).sum) ∧
    (∀ r ∈ [⟨"in", 0, 0, 10, 10, "#00F", none⟩, (⟨"neg", -1, 2, 20, 20, "#F00", none⟩ : Region)],
       (r.x < 0 ∨ r.y < 0) →
       (validateRegions (.ok (some 100) (some 100))
        [⟨"in", 0, 0, 10, 10, "#00F", none⟩, ⟨"neg", -1, 2, 20, 20, "#F00", none⟩]).1 = false) ∧
    (∀ r, regionOk 100 100 r → regionErrors 100 100 r = []) :=
  claim_C6 100 100 (by decide) (by decide)
    [⟨"in", 0, 0, 10, 10, "#00F", none⟩, ⟨"neg", -1, 2, 20, 20, "#F00", none⟩]

/-! ### Lemmas about cropping, batching and the orchestrator -/

theorem cropRegions_ok_map (crop : Region → Except Unit (List Nat)) :
    ∀ {rs : List Region} {l : List ProcessedRegion}, cropRegions crop rs = .ok l →
      l.map ProcessedRegion.regionId = rs.map Region.id := by
  intro rs
  induction rs with
  | nil =>
    intro l h
    simp only [cropRegions] at h
    cases h
    rfl
  | cons r rs ih =>
    intro l h
    cases hc : crop r with
    | error e => simp [cropRegions, hc] at h
    | ok buf =>
      cases hrec : cropRegions crop rs with
      | error msg => simp [cropRegions, hc, hrec] at h
      | ok tail =>
        simp only [cropRegions, hc, hrec] at h
        cases h
        simp [ih hrec]

theorem cropRegions_ok_length (crop : Region → Except Unit (List Nat))
    {rs : List Region} {l : List ProcessedRegion} (h : cropRegions crop rs = .ok l) :
    l.length = rs.length := by
  have hmap := cropRegions_ok_map crop h
  have := congrArg List.length hmap
  simpa using this

theorem chunkFuel_nil (k : Nat) (fuel : Nat) :
    chunkFuel k fuel ([] : List α) = [] := by
  cases fuel <;> rfl

theorem chunkFuel_flatten (k : Nat) (hk : 1 ≤ k) :
    ∀ (fuel : Nat) (l : List α), l.length ≤ fuel → (chunkFuel k fuel l).flatten = l := by
  intro fuel
  induction fuel with
  | zero =>
    intro l hl
    have hnil : l = [] := List.eq_nil_of_length_eq_zero (Nat.le_zero.mp hl)
    subst hnil
    rfl
  | succ fuel ih =>
    intro l hl
    cases l with
    | nil => rfl
    | cons a l' =>
      show ((a :: l').take k :: chunkFuel k fuel ((a :: l').drop k)).flatten = a :: l'
      rw [List.flatten_cons, ih ((a :: l').drop k) ?_, List.take_append_drop]
      simp only [List.length_drop, List.length_cons]
      simp only [List.length_cons] at hl
      omega

theorem chunkList_flatten (k : Nat) (hk : 1 ≤ k) (l : List α) :
    (chunkList k l).flatten = l :=
  chunkFuel_flatten k hk l.length l le_rfl

theorem chunkList_flatMap_map (k : Nat) (hk : 1 ≤ k) (l : List α) (f : α → β) :
    (chunkList k l).flatMap (fun b => b.map f) = l.map f := by
  have hmap : ∀ (L : List (List α)), L.flatMap (fun b => b.map f) = L.flatten.map f := by
    intro L
    induction L with
    | nil => rfl
    | cons b L ih => simp [ih]
  rw [hmap, chunkList_flatten k hk l]

theorem chunkFuel_mem (k : Nat) (hk : 1 ≤ k) :
    ∀ (fuel : Nat) (l : List α), ∀ b ∈ chunkFuel k fuel l, b ≠ [] ∧ b.length ≤ k := by
  intro fuel
  induction fuel with
  | zero =>
    intro l b hb
    simp [chunkFuel] at hb
  | succ fuel ih =>
    intro l b hb
    cases l with
    | nil => simp [chunkFuel] at hb
    | cons a l' =>
      rcases List.mem_cons.mp hb with hb | hb
      · subst hb
        constructor
        · cases k with
          | zero => omega
          | succ k' => simp
        · rw [List.length_take]
          exact min_le_left _ _
      · exact ih _ b hb

theorem chunkFuel_dropLast (k : Nat) (hk : 1 ≤ k) :
    ∀ (fuel : Nat) (l : List α), l.length ≤ fuel →
      ∀ b ∈ (chunkFuel k fuel l).dropLast, b.length = k := by
  intro fuel
  induction fuel with
  | zero =>
    intro l hl b hb
    simp [chunkFuel] at hb
  | succ fuel ih =>
    intro l hl b hb
    cases l with
    | nil => simp [chunkFuel] at hb
    | cons a l' =>
      have hstep : chunkFuel k (fuel + 1) (a :: l') =
          (a :: l').take k :: chunkFuel k fuel ((a :: l').drop k) := rfl
      rw [hstep] at hb
      cases hdrop : (a :: l').drop k with
      | nil =>
        rw [hdrop, chunkFuel_nil] at hb
        simp at hb
      | cons d ds =>
        have hlen : ((a :: l').drop k).length ≤ fuel := by
          simp only [List.length_drop, List.length_cons]
          simp only [List.length_cons] at hl
          omega
        cases fuel with
        | zero =>
          rw [hdrop] at hlen
          simp at hlen
        | succ f =>
          have hne : chunkFuel k (f + 1) ((a :: l').drop k) ≠ [] := by
            rw [hdrop]
            exact List.cons_ne_nil _ _
          rw [List.dropLast_cons_of_ne_nil hne] at hb
          rcases List.mem_cons.mp hb with hb | hb
          · subst hb
            rw [List.length_take]
            have hklt : k < (a :: l').length := by
              by_contra hge
              have : (a :: l').drop k = [] := List.drop_eq_nil_of_le (Nat.le_of_not_lt hge)
              rw [this] at hdrop
              cases hdrop
            omega
          · exact ih _ hlen b hb

theorem processRegion_regionId (p : ProcessedRegion) (chain : Except JSError String)
    (elapsed : Nat) : (processRegion p chain elapsed).regionId = p.regionId := by
  cases chain <;> rfl

theorem orchAllResults_eq (env : OrchEnv) (hk : 1 ≤ env.concurrencyLimit)
    (processed : List ProcessedRegion) :
    orchAllResults env processed =
      processed.map fun p => processRegion p (env.chain p) (env.elapsed p) :=
  chunkList_flatMap_map env.concurrencyLimit hk processed _

theorem orchAllResults_regionIds (env : OrchEnv) (hk : 1 ≤ env.concurrencyLimit)
    {rs : List Region} {processed : List ProcessedRegion}
    (hcrop : cropRegions env.crop rs = .ok processed) :
    (orchAllResults env processed).map OCRResult.regionId = rs.map Region.id := by
  rw [orchAllResults_eq env hk processed, List.map_map]
  have hcomp : (OCRResult.regionId ∘ fun p => processRegion p (env.chain p) (env.elapsed p)) =
      ProcessedRegion.regionId :=
    funext fun p => processRegion_regionId p (env.chain p) (env.elapsed p)
  rw [hcomp, cropRegions_ok_map env.crop hcrop]

theorem orchAllResults_length (env : OrchEnv) (hk : 1 ≤ env.concurrencyLimit)
    {rs : List Region} {processed : List ProcessedRegion}
    (hcrop : cropRegions env.crop rs = .ok processed) :
    (orchAllResults env processed).length = rs.length := by
  have := congrArg List.length (orchAllResults_regionIds env hk hcrop)
  simpa using this

theorem orch_fault_img (env : OrchEnv) (s : Session) (h : env.imageFound = false) :
    processOCRAsync env s = failSession s env.now ∧
      orchTrace env s = [s, failSession s env.now] := by
  constructor <;> simp [processOCRAsync, orchTrace, h]

theorem orch_fault_val (env : OrchEnv) (s : Session) (himg : env.imageFound = true)
    (hv : (validateRegions env.meta s.regions).1 = false) :
    processOCRAsync env s = failSession s env.now ∧
      orchTrace env s = [s, failSession s env.now] := by
  constructor <;> simp [processOCRAsync, orchTrace, himg, hv]

theorem orch_fault_crop (env : OrchEnv) (s : Session) (himg : env.imageFound = true)
    (hval : (validateRegions env.meta s.regions).1 = true) {msg : String}
    (hcrop : cropRegions env.crop s.regions = .error msg) :
    processOCRAsync env s = failSession s env.now ∧
      orchTrace env s = [s, failSession s env.now] := by
  constructor <;> simp [processOCRAsync, orchTrace, himg, hval, hcrop]

theorem orch_success (env : OrchEnv) (s : Session) (himg : env.imageFound = true)
    (hval : (validateRegions env.meta s.regions).1 = true) {processed : List ProcessedRegion}
    (hcrop : cropRegions env.crop s.regions = .ok processed) :
    processOCRAsync env s =
      { s with results := s.results ++ orchAllResults env processed
               status := .completed, completedAt := some env.now } ∧
    orchTrace env s =
      ((List.range ((orchAllResults env processed).length + 1)).map fun kk =>
        { s with results := s.results ++ (orchAllResults env processed).take kk })
      ++ [{ s with results := s.results ++ orchAllResults env processed
                   status := .completed, completedAt := some env.now }] := by
  constructor <;> simp [processOCRAsync, orchTrace, himg, hval, hcrop]

/-- Claim C1: for a freshly created session (empty results), at every state
the orchestrator's run passes through, `results.length` never exceeds
`regions.length`; the final state is terminal (`completed` or `failed`), and
there either `results.length = regions.length` or the status is `failed`
with zero results (the top-level fault path); in particular no completed
session has fewer results than regions. -/
theorem claim_C1 (env : OrchEnv) (s : Session) (hres : s.results = [])
    (hk : 1 ≤ env.concurrencyLimit) :
    (∀ st ∈ orchTrace env s, st.results.length ≤ st.regions.length) ∧
    ((processOCRAsync env s).status = .completed ∨ (processOCRAsync env s).status = .failed) ∧
    ((processOCRAsync env s).results.length = (processOCRAsync env s).regions.length ∨
       ((processOCRAsync env s).status = .failed ∧ (processOCRAsync env s).results = [])) ∧
    ((processOCRAsync env s).status = .completed →
       (processOCRAsync env s).results.length = (processOCRAsync env s).regions.length) := by
  have fault : processOCRAsync env s = failSession s env.now →
      orchTrace env s = [s, failSession s env.now] →
      (∀ st ∈ orchTrace env s, st.results.length ≤ st.regions.length) ∧
      ((processOCRAsync env s).status = .completed ∨ (processOCRAsync env s).status = .failed) ∧
      ((processOCRAsync env s).results.length = (processOCRAsync env s).regions.length ∨
         ((processOCRAsync env s).status = .failed ∧ (processOCRAsync env s).results = [])) ∧
      ((processOCRAsync env s).status = .completed →
         (processOCRAsync env s).results.length = (processOCRAsync env s).regions.length) := by
    intro heq htr
    refine ⟨?_, Or.inr (by rw [heq]; rfl), Or.inr ⟨by rw [heq]; rfl, ?_⟩, ?_⟩
    · intro st hst
      rw [htr] at hst
      simp only [List.mem_cons, List.not_mem_nil, or_false] at hst
      rcases hst with hst | hst <;> subst hst <;> simp [failSession, hres]
    · rw [heq]
      simp [failSession, hres]
    · intro hcomp
      rw [heq] at hcomp
      simp [failSession] at hcomp
  by_cases himg : env.imageFound = true
  · by_cases hval : (validateRegions env.meta s.regions).1 = true
    · cases hcrop : cropRegions env.crop s.regions with
      | error msg =>
        obtain ⟨heq, htr⟩ := orch_fault_crop env s himg hval hcrop
        exact fault heq htr
      | ok processed =>
        obtain ⟨heq, htr⟩ := orch_success env s himg hval hcrop
        have hlen : (orchAllResults env processed).length = s.regions.length :=
          orchAllResults_length env hk hcrop
        have hfin : (processOCRAsync env s).results.length =
            (processOCRAsync env s).regions.length := by
          rw [heq]
          simp [hres, hlen]
        refine ⟨?_, Or.inl (by rw [heq]), Or.inl hfin, fun _ => hfin⟩
        intro st hst
        rw [htr] at hst
        rcases List.mem_append.mp hst with hst | hst
        · rcases List.mem_map.mp hst with ⟨kk, _, hstk⟩
          subst hstk
          simp only [hres, List.nil_append, List.length_take]
          rw [← hlen]
          exact min_le_right _ _
        · simp only [List.mem_singleton] at hst
          subst hst
          simp [hres, hlen]
    · have hv : (validateRegions env.meta s.regions).1 = false := by
        simpa using hval
      obtain ⟨heq, htr⟩ := orch_fault_val env s himg hv
      exact fault heq htr
  · have h0 : env.imageFound = false := by simpa using himg
    obtain ⟨heq, htr⟩ := orch_fault_img env s h0
    exact fault heq htr

/-- The concrete environment used to witness C1: one region's chain
succeeds, the other's throws. -/
def c1env : OrchEnv :=
  { imageFound := true
    meta := .ok (some 100) (some 100)
    crop := fun _ => .ok [1, 2]
    chain := fun p => if p.regionId = "a" then .ok "textA"
                      else .error { code := none, message := some "x", retryable := .undef }
    elapsed := fun _ => 3
    concurrencyLimit := 3
    now := 9 }

/-- The concrete freshly-created session used to witness C1. -/
def c1sess : Session :=
  { id := "s2", imageId := "i"
    regions := [⟨"a", 0, 0, 10, 10, "#0", none⟩, ⟨"b", 20, 20, 30, 30, "#1", none⟩]
    results := [], status := .processing, createdAt := 0, completedAt := none }

/-- Witness for C1 at a concrete run with two regions, one of which fails. -/
theorem claim_C1_witness :
    (∀ st ∈ orchTrace c1env c1sess, st.results.length ≤ st.regions.length) ∧
    ((processOCRAsync c1env c1sess).status = .completed ∨
       (processOCRAsync c1env c1sess).status = .failed) ∧
    ((processOCRAsync c1env c1sess).results.length =
        (processOCRAsync c1env c1sess).regions.length ∨
       ((processOCRAsync c1env c1sess).status = .failed ∧
        (processOCRAsync c1env c1sess).results = [])) ∧
    ((processOCRAsync c1env c1sess).status = .completed →
       (processOCRAsync c1env c1sess).results.length =
         (processOCRAsync c1env c1sess).regions.length) :=
  claim_C1 c1env c1sess rfl (by decide)

theorem applyRetryEvent_scrub (ev : RetryEvent) :
    ∀ rs : List OCRResult, (applyRetryEvent ev rs).map scrubMessage = rs.map scrubMessage := by
  intro rs
  induction rs with
  | nil => rfl
  | cons r rs ih =>
    by_cases h : r.regionId = ev.regionId
    · cases herr : r.error with
      | none => simp [applyRetryEvent, h, herr]
      | some e => simp [applyRetryEvent, h, herr, scrubMessage]
    · simp [applyRetryEvent, h, ih]

theorem applyRetryEvents_scrub (evs : List RetryEvent) :
    ∀ rs : List OCRResult, (applyRetryEvents evs rs).map scrubMessage = rs.map scrubMessage := by
  induction evs with
  | nil => intro rs; rfl
  | cons ev evs ih =>
    intro rs
    show (applyRetryEvents evs (applyRetryEvent ev rs)).map scrubMessage = rs.map scrubMessage
    rw [ih, applyRetryEvent_scrub]

theorem applyRetryEvents_length (evs : List RetryEvent) (rs : List OCRResult) :
    (applyRetryEvents evs rs).length = rs.length := by
  have h := congrArg List.length (applyRetryEvents_scrub evs rs)
  simpa using h

theorem applyRetryEvents_regionIds (evs : List RetryEvent) (rs : List OCRResult) :
    (applyRetryEvents evs rs).map OCRResult.regionId = rs.map OCRResult.regionId := by
  have h := congrArg (List.map OCRResult.regionId) (applyRetryEvents_scrub evs rs)
  rw [List.map_map, List.map_map] at h
  have hcomp : OCRResult.regionId ∘ scrubMessage = OCRResult.regionId := funext fun r => rfl
  rwa [hcomp] at h

theorem applyRetryEvents_texts (evs : List RetryEvent) (rs : List OCRResult) :
    (applyRetryEvents evs rs).map OCRResult.text = rs.map OCRResult.text := by
  have h := congrArg (List.map OCRResult.text) (applyRetryEvents_scrub evs rs)
  rw [List.map_map, List.map_map] at h
  have hcomp : OCRResult.text ∘ scrubMessage = OCRResult.text := funext fun r => rfl
  rwa [hcomp] at h

theorem orchAllResults_eq_flatten (env : OrchEnv) (processed : List ProcessedRegion) :
    orchAllResults env processed = (batchOutputs env processed).flatten := by
  unfold orchAllResults batchOutputs
  induction chunkList env.concurrencyLimit processed with
  | nil => rfl
  | cons b bs ih => simp [ih]

theorem orchResultStates_no_events (env : OrchEnv) (s : Session)
    (processed : List ProcessedRegion) :
    ∀ j, j ≤ (batchOutputs env processed).length →
      orchResultStates env (fun _ => []) s processed j =
        s.results ++ ((batchOutputs env processed).take j).flatten := by
  intro j
  induction j with
  | zero => intro _; simp [orchResultStates]
  | succ j ih =>
    intro hj
    have hjlt : j < (batchOutputs env processed).length := hj
    show applyRetryEvents [] (orchResultStates env (fun _ => []) s processed j) ++
        (batchOutputs env processed).getD j [] = _
    rw [show ∀ rs, applyRetryEvents [] rs = rs from fun rs => rfl,
      ih (Nat.le_of_lt hjlt), List.getD_eq_getElem _ _ hjlt, List.take_succ,
      List.getElem?_eq_getElem hjlt, Option.toList_some, List.flatten_append,
      List.flatten_cons, List.flatten_nil, List.append_nil, List.append_assoc]

theorem orchResultStates_scrub (env : OrchEnv) (schedule : Nat → List RetryEvent) (s : Session)
    (processed : List ProcessedRegion) :
    ∀ j, j ≤ (batchOutputs env processed).length →
      (orchResultStates env schedule s processed j).map scrubMessage =
        (s.results ++ ((batchOutputs env processed).take j).flatten).map scrubMessage := by
  intro j
  induction j with
  | zero => intro _; simp [orchResultStates]
  | succ j ih =>
    intro hj
    have hjlt : j < (batchOutputs env processed).length := hj
    show (applyRetryEvents (schedule (j + 1)) (orchResultStates env schedule s processed j) ++
        (batchOutputs env processed).getD j []).map scrubMessage = _
    rw [List.map_append, applyRetryEvents_scrub, ih (Nat.le_of_lt hjlt),
      List.getD_eq_getElem _ _ hjlt, List.take_succ, List.getElem?_eq_getElem hjlt,
      Option.toList_some, List.flatten_append, List.flatten_cons, List.flatten_nil,
      List.append_nil, List.map_append, List.append_assoc]
    rw [List.map_append, List.map_append]

/-- Claim C5: `chunkList` partitions a list into consecutive batches of size
`concurrencyLimit` preserving the original order (their concatenation is the
list), every batch is nonempty of size at most the limit, every batch except
possibly the last is full, 7 items at limit 3 give batch sizes [3, 3, 1],
and the orchestrator appends whole batches strictly in sequence: what it
appends overall is the concatenation of the per-batch outputs, and — with
the retry observer's concurrent error-message rewrites interleaved — after
each batch the session holds exactly the results of the first j batches in
order (exactly when no observer event fires; up to rewrites of stored
error messages under any event schedule: region ids, texts, processing
times, error codes and retryability are those of the first j batches). -/
theorem claim_C5 {α : Type} (k : Nat) (hk1 : 1 ≤ k) (l : List α) (env : OrchEnv) (s : Session)
    (processed : List ProcessedRegion) :
    ((chunkList k l).flatten = l) ∧
    (∀ b ∈ chunkList k l, b ≠ [] ∧ b.length ≤ k) ∧
    (∀ b ∈ (chunkList k l).dropLast, b.length = k) ∧
    ((chunkList 3 (List.range 7)).map List.length = [3, 3, 1]) ∧
    (orchAllResults env processed = (batchOutputs env processed).flatten) ∧
    (∀ j, j ≤ (batchOutputs env processed).length →
       orchResultStates env (fun _ => []) s processed j =
         s.results ++ ((batchOutputs env processed).take j).flatten) ∧
    (∀ (schedule : Nat → List RetryEvent) (j : Nat),
       j ≤ (batchOutputs env processed).length →
       (orchResultStates env schedule s processed j).map scrubMessage =
         (s.results ++ ((batchOutputs env processed).take j).flatten).map scrubMessage) :=
  ⟨chunkList_flatten k hk1 l, chunkFuel_mem k hk1 l.length l,
    chunkFuel_dropLast k hk1 l.length l le_rfl, by decide,
    orchAllResults_eq_flatten env processed,
    orchResultStates_no_events env s processed,
    fun schedule => orchResultStates_scrub env schedule s processed⟩

/-- The concrete environment used to witness C5: seven regions, limit 3. -/
def c5env : OrchEnv :=
  { imageFound := true
    meta := .ok (some 1000) (some 1000)
    crop := fun _ => .ok []
    chain := fun p => .ok ("t" ++ p.regionId)
    elapsed := fun _ => 1
    concurrencyLimit := 3
    now := 4 }

/-- The concrete freshly-created session used to witness C5: seven regions. -/
def c5sess : Session :=
  { id := "s5", imageId := "i5"
    regions := (List.range 7).map fun n => ⟨toString n, 0, 0, 10, 10, "#0", none⟩
    results := [], status := .processing, createdAt := 0, completedAt := none }

/-- The cropped regions of the C5 witness run, one per submitted region. -/
def c5processed : List ProcessedRegion :=
  (List.range 7).map fun n => ⟨toString n, [], "image/png"⟩

/-- Witness for C5 at a concrete seven-region run with concurrency limit 3. -/
theorem claim_C5_witness :
    ((chunkList 3 (List.range 7)).flatten = List.range 7) ∧
    (∀ b ∈ chunkList 3 (List.range 7), b ≠ [] ∧ b.length ≤ 3) ∧
    (∀ b ∈ (chunkList 3 (List.range 7)).dropLast, b.length = 3) ∧
    ((chunkList 3 (List.range 7)).map List.length = [3, 3, 1]) ∧
    (orchAllResults c5env c5processed = (batchOutputs c5env c5processed).flatten) ∧
    (∀ j, j ≤ (batchOutputs c5env c5processed).length →
       orchResultStates c5env (fun _ => []) c5sess c5processed j =
         c5sess.results ++ ((batchOutputs c5env c5processed).take j).flatten) ∧
    (∀ (schedule : Nat → List RetryEvent) (j : Nat),
       j ≤ (batchOutputs c5env c5processed).length →
       (orchResultStates c5env schedule c5sess c5processed j).map scrubMessage =
         (c5sess.results ++ ((batchOutputs c5env c5processed).take j).flatten).map scrubMessage) :=
  claim_C5 3 (by decide) (List.range 7) c5env c5sess c5processed

/-- Claim C10: whenever a run completes, the session's results are in exact
region input order — the list of result region ids equals the list of
submitted region ids — hence every region id occurs in the results exactly
as often as among the regions, and distinct submitted ids give duplicate-free
results. -/
theorem claim_C10 (env : OrchEnv) (s : Session) (hres : s.results = [])
    (hk : 1 ≤ env.concurrencyLimit)
    (hc : (processOCRAsync env s).status = .completed) :
    ((processOCRAsync env s).results.map OCRResult.regionId = s.regions.map Region.id) ∧
    (∀ rid, ((processOCRAsync env s).results.map OCRResult.regionId).count rid =
       (s.regions.map Region.id).count rid) ∧
    ((s.regions.map Region.id).Nodup →
       ((processOCRAsync env s).results.map OCRResult.regionId).Nodup) := by
  by_cases himg : env.imageFound = true
  · by_cases hval : (validateRegions env.meta s.regions).1 = true
    · cases hcrop : cropRegions env.crop s.regions with
      | error msg =>
        obtain ⟨heq, -⟩ := orch_fault_crop env s himg hval hcrop
        rw [heq] at hc
        simp [failSession] at hc
      | ok processed =>
        obtain ⟨heq, -⟩ := orch_success env s himg hval hcrop
        have hmap : (processOCRAsync env s).results.map OCRResult.regionId =
            s.regions.map Region.id := by
          rw [heq]
          simp only [hres, List.nil_append]
          exact orchAllResults_regionIds env hk hcrop
        exact ⟨hmap, fun rid => by rw [hmap], fun hnd => by rw [hmap]; exact hnd⟩
    · have hv : (validateRegions env.meta s.regions).1 = false := by simpa using hval
      obtain ⟨heq, -⟩ := orch_fault_val env s himg hv
      rw [heq] at hc
      simp [failSession] at hc
  · have h0 : env.imageFound = false := by simpa using himg
    obtain ⟨heq, -⟩ := orch_fault_img env s h0
    rw [heq] at hc
    simp [failSession] at hc

/-- The concrete environment used to witness C10: three regions, limit 2,
the middle region's chain throws. -/
def c10env : OrchEnv :=
  { imageFound := true
    meta := .ok (some 100) (some 100)
    crop := fun _ => .ok [7]
    chain := fun p => if p.regionId = "m" then
        .error { code := some "E", message := none, retryable := .undef }
      else .ok "ok"
    elapsed := fun _ => 2
    concurrencyLimit := 2
    now := 11 }

/-- The concrete freshly-created session used to witness C10. -/
def c10sess : Session :=
  { id := "sA", imageId := "iA"
    regions := [⟨"l", 0, 0, 10, 10, "#0", none⟩, ⟨"m", 10, 10, 10, 10, "#1", none⟩,
                ⟨"r", 30, 30, 20, 20, "#2", none⟩]
    results := [], status := .processing, createdAt := 0, completedAt := none }

/-- Witness for C10 at a concrete completed three-region run. -/
theorem claim_C10_witness :
    ((processOCRAsync c10env c10sess).results.map OCRResult.regionId =
       c10sess.regions.map Region.id) ∧
    (∀ rid, ((processOCRAsync c10env c10sess).results.map OCRResult.regionId).count rid =
       (c10sess.regions.map Region.id).count rid) ∧
    ((c10sess.regions.map Region.id).Nodup →
       ((processOCRAsync c10env c10sess).results.map OCRResult.regionId).Nodup) :=
  claim_C10 c10env c10sess rfl (by decide) (by decide)

/-- The TIMEOUT result of a region whose outer deadline fired while its
retry loop was still running (the loop is abandoned, not cancelled). -/
def c9timedResult : OCRResult :=
  { regionId := "r1", text := "", processingTime := 30000
    error := some { code := "TIMEOUT", message := "OCR processing timed out", retryable := false } }

/-- A completed session storing the timed-out region's result. -/
def c9timedSess : Session :=
  { id := "sess2", imageId := "img"
    regions := [⟨"r1", 0, 0, 10, 10, "#000", none⟩]
    results := [c9timedResult]
    status := .completed, createdAt := 10, completedAt := some 30100 }

/-- The abandoned retry loop's observer firing after completion: its second
attempt fails retryably with 503 UNAVAILABLE. -/
def c9event : RetryEvent :=
  { regionId := "r1", attempt := 2
    error := { code := some "UNAVAILABLE", message := some "503 UNAVAILABLE", retryable := .undef } }

/-- Counterexample to C9 as stated: the session is completed with the
timed-out region's result stored, yet the abandoned retry loop's observer
(`ocrController.ts` lines 202-212) still fires and rewrites that stored
result's `error.message` in place, so two `getOCRStatus` polls straddling
the firing return different results arrays for the same completed
session — the results are not identical on every call and the session is
mutated after reaching a terminal state. -/
theorem claim_C9_counterexample :
    c9timedSess.status = .completed ∧
    applyRetryEvents [c9event] c9timedSess.results ≠ c9timedSess.results ∧
    getOCRStatus [("sess2", c9timedSess)] "sess2" 40000 ≠
      getOCRStatus
        [("sess2", { c9timedSess with results := applyRetryEvents [c9event] c9timedSess.results })]
        "sess2" 40000 :=
  ⟨rfl, by decide, by decide⟩

/-- Claim C9 (amended): `getOCRStatus` is a pure read whose payload for a
completed session does not depend on the polling time: status, success,
`processingTime = completedAt - createdAt` and progress are fixed, and the
orchestrator stamps `completedAt` whenever it terminates.  However the
abandoned retry loops' observers may still rewrite a stored result's
`error.message` after completion, so the results arrays of successive calls
agree only up to error messages: observer events never change the number,
order, region ids, texts, processing times, error codes or retryable flags
of a completed session's results, nor its status, timestamps or progress —
but they can change an error message between two polls. -/
theorem claim_C9 (store : List (String × Session)) (sid : String) (sess : Session) (t : Nat)
    (now1 now2 : Nat) (hl : store.lookup sid = some sess)
    (hs : sess.status = .completed) (hc : sess.completedAt = some t) :
    (getOCRStatus store sid now1 = getOCRStatus store sid now2) ∧
    (∀ p, getOCRStatus store sid now1 = some p →
       p.results = sess.results ∧ p.status = .completed ∧ p.success = true ∧
       p.processingTime = (t : Int) - (sess.createdAt : Int) ∧
       p.progressCurrent = sess.results.length ∧ p.progressTotal = sess.regions.length) ∧
    (∀ env (s0 : Session), (processOCRAsync env s0).completedAt = some env.now) ∧
    (∀ evs : List RetryEvent,
       (applyRetryEvents evs sess.results).map scrubMessage = sess.results.map scrubMessage ∧
       (applyRetryEvents evs sess.results).length = sess.results.length ∧
       (applyRetryEvents evs sess.results).map OCRResult.regionId =
         sess.results.map OCRResult.regionId ∧
       (applyRetryEvents evs sess.results).map OCRResult.text =
         sess.results.map OCRResult.text) ∧
    (∀ (evs : List RetryEvent) (now3 now4 : Nat) (p q : StatusPayload),
       getOCRStatus [(sid, sess)] sid now3 = some p →
       getOCRStatus [(sid, { sess with results := applyRetryEvents evs sess.results })]
         sid now4 = some q →
       q.sessionId = p.sessionId ∧ q.status = p.status ∧ q.success = p.success ∧
       q.processingTime = p.processingTime ∧ q.progressCurrent = p.progressCurrent ∧
       q.progressTotal = p.progressTotal ∧
       q.results.map scrubMessage = p.results.map scrubMessage) := by
  have hget : getOCRStatus store sid now1 = getOCRStatus store sid now2 := by
    simp [getOCRStatus, hl, hc]
  have hterm : ∀ env (s0 : Session), (processOCRAsync env s0).completedAt = some env.now := by
    intro env s0
    by_cases himg : env.imageFound = true
    · by_cases hval : (validateRegions env.meta s0.regions).1 = true
      · cases hcrop : cropRegions env.crop s0.regions with
        | error msg => rw [(orch_fault_crop env s0 himg hval hcrop).1]; rfl
        | ok processed => rw [(orch_success env s0 himg hval hcrop).1]
      · have hv : (validateRegions env.meta s0.regions).1 = false := by simpa using hval
        rw [(orch_fault_val env s0 himg hv).1]; rfl
    · have h0 : env.imageFound = false := by simpa using himg
      rw [(orch_fault_img env s0 h0).1]; rfl
  refine ⟨hget, ?_, hterm, ?_, ?_⟩
  · intro p hp
    have hval : getOCRStatus store sid now1 = some
        { sessionId := sess.id, results := sess.results
          processingTime := (t : Int) - (sess.createdAt : Int)
          success := true, status := .completed
          progressCurrent := sess.results.length
          progressTotal := sess.regions.length } := by
      simp [getOCRStatus, hl, hc, hs]
    rw [hval] at hp
    cases hp
    exact ⟨rfl, rfl, rfl, rfl, rfl, rfl⟩
  · intro evs
    exact ⟨applyRetryEvents_scrub evs sess.results, applyRetryEvents_length evs sess.results,
      applyRetryEvents_regionIds evs sess.results, applyRetryEvents_texts evs sess.results⟩
  · intro evs now3 now4 p q hp hq
    have hlook : List.lookup sid [(sid, sess)] = some sess := by
      simp [List.lookup]
    have hlook2 : List.lookup sid
        [(sid, { sess with results := applyRetryEvents evs sess.results })] =
        some { sess with results := applyRetryEvents evs sess.results } := by
      simp [List.lookup]
    have hp2 : getOCRStatus [(sid, sess)] sid now3 = some
        { sessionId := sess.id, results := sess.results
          processingTime := (t : Int) - (sess.createdAt : Int)
          success := true, status := .completed
          progressCurrent := sess.results.length
          progressTotal := sess.regions.length } := by
      simp [getOCRStatus, hlook, hc, hs]
    have hq2 : getOCRStatus
        [(sid, { sess with results := applyRetryEvents evs sess.results })] sid now4 = some
        { sessionId := sess.id, results := applyRetryEvents evs sess.results
          processingTime := (t : Int) - (sess.createdAt : Int)
          success := true, status := .completed
          progressCurrent := (applyRetryEvents evs sess.results).length
          progressTotal := sess.regions.length } := by
      simp [getOCRStatus, hlook2, hc, hs]
    rw [hp2] at hp
    rw [hq2] at hq
    cases hp
    cases hq
    exact ⟨rfl, rfl, rfl, rfl, applyRetryEvents_length evs sess.results, rfl,
      applyRetryEvents_scrub evs sess.results⟩

/-- The concrete completed session used to witness the amended C9. -/
def c9sess : Session :=
  { id := "sess1", imageId := "img"
    regions := [⟨"r1", 0, 0, 10, 10, "#000", none⟩]
    results := [⟨"r1", "hello", 42, none⟩]
    status := .completed, createdAt := 10, completedAt := some 50 }

/-- Witness for the amended C9 at a concrete store, polled at two times. -/
theorem claim_C9_witness :
    (getOCRStatus [("sess1", c9sess)] "sess1" 100 = getOCRStatus [("sess1", c9sess)] "sess1" 200) ∧
    (∀ p, getOCRStatus [("sess1", c9sess)] "sess1" 100 = some p →
       p.results = c9sess.results ∧ p.status = .completed ∧ p.success = true ∧
       p.processingTime = ((50 : Nat) : Int) - (c9sess.createdAt : Int) ∧
       p.progressCurrent = c9sess.results.length ∧ p.progressTotal = c9sess.regions.length) ∧
    (∀ env (s0 : Session), (processOCRAsync env s0).completedAt = some env.now) ∧
    (∀ evs : List RetryEvent,
       (applyRetryEvents evs c9sess.results).map scrubMessage =
         c9sess.results.map scrubMessage ∧
       (applyRetryEvents evs c9sess.results).length = c9sess.results.length ∧
       (applyRetryEvents evs c9sess.results).map OCRResult.regionId =
         c9sess.results.map OCRResult.regionId ∧
       (applyRetryEvents evs c9sess.results).map OCRResult.text =
         c9sess.results.map OCRResult.text) ∧
    (∀ (evs : List RetryEvent) (now3 now4 : Nat) (p q : StatusPayload),
       getOCRStatus [("sess1", c9sess)] "sess1" now3 = some p →
       getOCRStatus [("sess1", { c9sess with results := applyRetryEvents evs c9sess.results })]
         "sess1" now4 = some q →
       q.sessionId = p.sessionId ∧ q.status = p.status ∧ q.success = p.success ∧
       q.processingTime = p.processingTime ∧ q.progressCurrent = p.progressCurrent ∧
       q.progressTotal = p.progressTotal ∧
       q.results.map scrubMessage = p.results.map scrubMessage) :=
  claim_C9 [("sess1", c9sess)] "sess1" c9sess 50 100 200 rfl rfl rfl

end WebOCR
